import Mathlib

/-!
# Verification of `scripts/translate.py`

Shallow embedding of the Codeforces problem-translation pipeline:
string utilities mirroring Python's `str` methods, the two-backend
translation client, the HTML extractor over a tree model of the pages,
the two markdown renderers, the index-file synchronizer, and the run
controller as a pure transform over a small filesystem state.

Network calls (page fetch, metadata fetch, the two translation
backends) are modelled as explicit oracle parameters; `time.sleep`
and backend calls are recorded as events where a claim is about them.
-/

namespace CFTrans

/-! ## Python string primitives -/

/-- Python whitespace set used by `str.strip` / `str.rstrip` and `\s`
in ASCII text (space, tab, newline, carriage return, vertical tab, form feed). -/
def isPyWs (c : Char) : Bool :=
  c == ' ' || c == '\t' || c == '\n' || c == '\r' || c == '\x0b' || c == '\x0c'

/-- Python `str.rstrip()` on a character list. -/
def pyRstripL (l : List Char) : List Char :=
  (l.reverse.dropWhile isPyWs).reverse

/-- Python `str.strip()` on a character list. -/
def pyStripL (l : List Char) : List Char :=
  pyRstripL (l.dropWhile isPyWs)

/-- Python `str.strip()`. -/
def pyStrip (s : String) : String :=
  ⟨pyStripL s.data⟩

/-- Python `str.rstrip()`. -/
def pyRstripS (s : String) : String :=
  ⟨pyRstripL s.data⟩

/-- Python `str.rstrip("|")`: drop trailing pipe characters. -/
def rstripPipes (l : List Char) : List Char :=
  (l.reverse.dropWhile (· == '|')).reverse

/-- Python `str.upper()` for the ASCII problem-index letters. -/
def pyUpper (s : String) : String :=
  s.map Char.toUpper

/-- Does `pat` occur at the start of `l`? (helper for substring search). -/
def startsWithCL : List Char → List Char → Bool
  | [], _ => true
  | _ :: _, [] => false
  | p :: ps, c :: cs => p == c && startsWithCL ps cs

/-- Python `pat in hay` substring test, on character lists. -/
def containsCL (pat : List Char) : List Char → Bool
  | [] => startsWithCL pat []
  | c :: cs => startsWithCL pat (c :: cs) || containsCL pat cs

/-- Python `pat in hay` substring test on strings. -/
def containsStr (hay pat : String) : Bool :=
  containsCL pat.data hay.data

/-- Python `sep.join(xs)`. -/
def joinSep (sep : String) : List String → String
  | [] => ""
  | [s] => s
  | s :: rest => s ++ sep ++ joinSep sep rest

/-- Concatenation of a list of strings (`"".join(xs)`). -/
def joinAll : List String → String
  | [] => ""
  | s :: rest => s ++ joinAll rest

/-! ## Translation client (`translate_libretranslate` / `translate_mymemory` / `translate`)

The two backends are network calls; each is modelled as an oracle
`String → String` returning the translated text, with `""` standing
for the failure outcome the Python wrappers map every error to.
`translate`'s effects (which backends are contacted and the
post-call `time.sleep(0.5)` pause) are recorded as events. -/

/-- An observable effect of `translate`: a LibreTranslate call, a
MyMemory call, or the rate-limit pause. -/
inductive Ev where
  | lt : Ev
  | mm : Ev
  | pause : Ev
deriving DecidableEq, Repr

/-- Python `translate(text)` together with its trace of backend calls and pauses:
blank input returns immediately; otherwise LibreTranslate is tried, MyMemory
on empty result, a pause is inserted after the calls, and a still-empty
result falls back to the original text. -/
def translateE (lt mm : String → String) (text : String) : String × List Ev :=
  if text = "" ∨ pyStrip text = "" then (text, [])
  else
    let r1 := lt text
    if r1 = "" then
      let r2 := mm text
      ((if r2 = "" then text else r2), [Ev.lt, Ev.mm, Ev.pause])
    else (r1, [Ev.lt, Ev.pause])

/-- Python `translate(text)`: the returned string of `translateE`. -/
def translate (lt mm : String → String) (text : String) : String :=
  (translateE lt mm text).1

/-! ## Data model -/

/-- One sample test: an (input, output) pair of verbatim block texts. -/
structure Example where
  input : String
  output : String
deriving DecidableEq, Repr

/-- The structured record extracted from a problem page
(`parse_problem_html`'s non-empty result dict). -/
structure ProblemRecord where
  title : String
  full_title : String
  description : String
  input_section : String
  output_section : String
  examples : List Example
  note : String
deriving DecidableEq, Repr

/-- The dict produced by `translate_problem`: the four natural-language
fields plus note, and the examples copied over. It has no `full_title`. -/
structure TranslatedRecord where
  title : String
  description : String
  input_section : String
  output_section : String
  note : String
  examples : List Example
deriving DecidableEq, Repr

/-- Python `translate_problem(problem)`: translate each natural-language field
(note only when non-empty), copy examples verbatim. -/
def translate_problem (lt mm : String → String) (problem : ProblemRecord) :
    TranslatedRecord :=
  { title := translate lt mm problem.title
    description := translate lt mm problem.description
    input_section := translate lt mm problem.input_section
    output_section := translate lt mm problem.output_section
    note := if problem.note ≠ "" then translate lt mm problem.note else ""
    examples := problem.examples }

/-! ## HTML model

Problem pages are parsed with BeautifulSoup. The document is modelled as
a tree of tags (with a name, a `class` attribute list and children) and
text nodes; the BeautifulSoup operations the script uses (`find`,
`find_all`, `find_next_sibling`, `get_text`, `decompose`, `str(el)`) are
defined over this tree with BeautifulSoup's document-order semantics. -/

mutual
inductive Html where
  | text : String → Html
  | tag : String → List String → HtmlList → Html
inductive HtmlList where
  | nil : HtmlList
  | cons : Html → HtmlList → HtmlList
end

/-- A singleton child list. -/
def one (x : Html) : HtmlList := .cons x .nil

/-- Does this node match `find("div", class_=cls)` (a `div` tag whose
multi-valued class attribute contains `cls`)? -/
def isDivCl (cls : String) : Html → Bool
  | .text _ => false
  | .tag n cs _ => n == "div" && cs.contains cls

/-- Does this node match `find(name)` by tag name? -/
def isTagName (name : String) : Html → Bool
  | .text _ => false
  | .tag n _ _ => n == name

mutual
/-- BeautifulSoup `el.find("div", class_=cls)`: the first descendant div
carrying the class, in document (pre-)order; `el` itself is not considered. -/
def findDiv (cls : String) : Html → Option Html
  | .text _ => none
  | .tag _ _ ch => findDivL cls ch
def findDivL (cls : String) : HtmlList → Option Html
  | .nil => none
  | .cons h t =>
    if isDivCl cls h then some h
    else
      match findDiv cls h with
      | some r => some r
      | none => findDivL cls t
end

mutual
/-- BeautifulSoup `el.find(name)`: first descendant with the tag name. -/
def findTagName (name : String) : Html → Option Html
  | .text _ => none
  | .tag _ _ ch => findTagNameL name ch
def findTagNameL (name : String) : HtmlList → Option Html
  | .nil => none
  | .cons h t =>
    if isTagName name h then some h
    else
      match findTagName name h with
      | some r => some r
      | none => findTagNameL name t
end

mutual
/-- BeautifulSoup `el.find_all("div", class_=cls)`: all matching
descendants in document order (matches nested inside matches included). -/
def findAllDiv (cls : String) : Html → List Html
  | .text _ => []
  | .tag _ _ ch => findAllDivL cls ch
def findAllDivL (cls : String) : HtmlList → List Html
  | .nil => []
  | .cons h t =>
    (if isDivCl cls h then [h] else []) ++ findAllDiv cls h ++ findAllDivL cls t
end

mutual
/-- The descendant text nodes of an element, in document order
(BeautifulSoup `el.strings`). -/
def texts : Html → List String
  | .text s => [s]
  | .tag _ _ ch => textsL ch
def textsL : HtmlList → List String
  | .nil => []
  | .cons h t => texts h ++ textsL t
end

/-- BeautifulSoup `get_text()` with no arguments: the concatenation of
the descendant strings. -/
def getTextRaw (h : Html) : String :=
  joinAll (texts h)

/-- With `strip=True`, `get_text` strips each string and skips the ones
that become empty. -/
def stripTexts : List String → List String
  | [] => []
  | s :: rest => if pyStrip s = "" then stripTexts rest else pyStrip s :: stripTexts rest

/-- BeautifulSoup `get_text(separator=" ", strip=True)`. -/
def bsTextStrip (h : Html) : String :=
  joinSep " " (stripTexts (texts h))

/-- The first following sibling that is a `div` tag
(`find_next_sibling("div")`). -/
def firstDivTag : HtmlList → Option Html
  | .nil => none
  | .cons h t =>
    if isTagName "div" h then some h else firstDivTag t

mutual
/-- Locate the first descendant div with class `cls` (as `findDiv` does)
together with its `find_next_sibling("div")`. -/
def findDivSib (cls : String) : Html → Option (Html × Option Html)
  | .text _ => none
  | .tag _ _ ch => findDivSibL cls ch
def findDivSibL (cls : String) : HtmlList → Option (Html × Option Html)
  | .nil => none
  | .cons h t =>
    if isDivCl cls h then some (h, firstDivTag t)
    else
      match findDivSib cls h with
      | some r => some r
      | none => findDivSibL cls t
end

mutual
/-- Python `el.find("div", class_=cls).decompose()`: remove the first matching
descendant (document order); `none` when there is no match. -/
def rmFirstDiv (cls : String) : Html → Option Html
  | .text _ => none
  | .tag n cs ch => (rmFirstDivL cls ch).map (Html.tag n cs)
def rmFirstDivL (cls : String) : HtmlList → Option HtmlList
  | .nil => none
  | .cons h t =>
    if isDivCl cls h then some t
    else
      match rmFirstDiv cls h with
      | some h2 => some (.cons h2 t)
      | none => (rmFirstDivL cls t).map (HtmlList.cons h)
end

/-- The serialized `class` attribute of a tag ( `str(el)` ). -/
def classAttr (cs : List String) : String :=
  if cs = [] then "" else " class=\"" ++ joinSep " " cs ++ "\""

mutual
/-- Python `str(el)`: serialize the element back to markup. -/
def serialize : Html → String
  | .text s => s
  | .tag n cs ch => "<" ++ n ++ classAttr cs ++ ">" ++ serializeL ch ++ "</" ++ n ++ ">"
def serializeL : HtmlList → String
  | .nil => ""
  | .cons h t => serialize h ++ serializeL t
end

/-! ## `html_to_markdown`: regex substitutions over the serialized markup -/

/-- Case-insensitive test for one ASCII letter. -/
def ciIs (c lo up : Char) : Bool := c == lo || c == up

/-- Length of a match of `<br\s*/?>` (case-insensitive) at the head. -/
def matchBrLen : List Char → Option Nat
  | '<' :: c1 :: c2 :: rest =>
    if ciIs c1 'b' 'B' && ciIs c2 'r' 'R' then
      let n := (rest.takeWhile isPyWs).length
      match rest.drop n with
      | '/' :: '>' :: _ => some (n + 5)
      | '>' :: _ => some (n + 4)
      | _ => none
    else none
  | _ => none

/-- Length of a match of `</p>` (case-insensitive) at the head. -/
def matchPCloseLen : List Char → Option Nat
  | '<' :: '/' :: c :: '>' :: _ => if ciIs c 'p' 'P' then some 4 else none
  | _ => none

/-- Length of a match of `<p>` (case-insensitive) at the head. -/
def matchPOpenLen : List Char → Option Nat
  | '<' :: c :: '>' :: _ => if ciIs c 'p' 'P' then some 3 else none
  | _ => none

/-- Length of a match of `<pre[^>]*>` (case-insensitive) at the head. -/
def matchPreOpenLen : List Char → Option Nat
  | '<' :: c1 :: c2 :: c3 :: rest =>
    if ciIs c1 'p' 'P' && ciIs c2 'r' 'R' && ciIs c3 'e' 'E' then
      let n := (rest.takeWhile (· != '>')).length
      match rest.drop n with
      | '>' :: _ => some (n + 5)
      | _ => none
    else none
  | _ => none

/-- Length of a match of `</pre>` (case-insensitive) at the head. -/
def matchPreCloseLen : List Char → Option Nat
  | '<' :: '/' :: c1 :: c2 :: c3 :: '>' :: _ =>
    if ciIs c1 'p' 'P' && ciIs c2 'r' 'R' && ciIs c3 'e' 'E' then some 6 else none
  | _ => none

/-- Python `re.sub` with a fixed pattern: scan left to right, replace each match
(the matcher reports the length consumed) and continue after it. -/
def subScan (matchLen : List Char → Option Nat) (repl : List Char) :
    List Char → List Char
  | [] => []
  | c :: cs =>
    match matchLen (c :: cs) with
    | some n => repl ++ subScan matchLen repl (cs.drop (n - 1))
    | none => c :: subScan matchLen repl cs
termination_by l => l.length
decreasing_by
  · simp only [List.length_cons, List.length_drop]; omega
  · simp

/-- Skip past the next `>` (consume the rest of a tag). -/
def skipAfterGt (l : List Char) : List Char :=
  (l.dropWhile (· != '>')).drop 1

/-- Split markup into the text runs between tags (the text nodes of a
fresh BeautifulSoup parse of the substituted markup). -/
def splitSegsAux (acc : List Char) : List Char → List (List Char)
  | [] => [acc.reverse]
  | c :: cs =>
    if c = '<' then acc.reverse :: splitSegsAux [] (skipAfterGt cs)
    else splitSegsAux (c :: acc) cs
termination_by l => l.length
decreasing_by
  · have h1 : (cs.dropWhile (· != '>')).length ≤ cs.length :=
      (List.dropWhile_sublist _).length_le
    simp only [skipAfterGt, List.length_cons, List.length_drop]
    omega
  · simp

/-- Model of `BeautifulSoup(text).get_text(separator=" ", strip=True)` on
the substituted markup: strip the tags, strip each text run, join the
non-empty ones with single spaces. -/
def getTextFromMarkup (l : List Char) : String :=
  joinSep " " (stripTexts ((splitSegsAux [] l).map (fun seg => (⟨seg⟩ : String))))

/-- Python `html_to_markdown(el)`: serialize, replace `<br>`s by newlines, `</p>`
by blank lines, drop `<p>`, fence `<pre>` blocks, then take the text of a
re-parse of the result. -/
def html_to_markdown (el : Html) : String :=
  let t0 := (serialize el).data
  let t1 := subScan matchBrLen ['\n'] t0
  let t2 := subScan matchPCloseLen ['\n', '\n'] t1
  let t3 := subScan matchPOpenLen [] t2
  let t4 := subScan matchPreOpenLen ("\n```\n").data t3
  let t5 := subScan matchPreCloseLen ("\n```\n").data t4
  getTextFromMarkup t5

/-- Python `extract_section(div)`: drop the first `section-title` sub-div if any,
then convert to markdown. -/
def extract_section (div : Html) : String :=
  match rmFirstDiv "section-title" div with
  | some d => html_to_markdown d
  | none => html_to_markdown div

/-- The loop body of `parse_examples`: one zipped (input, output) div pair
contributes the raw text of each side's `pre` block ( `""` when absent). -/
def exOf (io : Html × Html) : Example :=
  { input := match findTagName "pre" io.1 with
      | none => ""
      | some p => getTextRaw p
    output := match findTagName "pre" io.2 with
      | none => ""
      | some p => getTextRaw p }

/-- Python `parse_examples(sample_tests)`: zip the `input` divs with the `output`
divs of the `sample-test` block positionally. -/
def parse_examples (sampleTests : Html) : List Example :=
  match findDiv "sample-test" sampleTests with
  | none => []
  | some st =>
    let inputs := findAllDiv "input" st
    let outputs := findAllDiv "output" st
    (inputs.zip outputs).map exOf

/-- Python `re.sub(r"^[A-Z]\.\s*", "", s)`: strip a leading uppercase letter
followed by a period and any whitespace. -/
def stripTitlePre (s : String) : String :=
  match s.data with
  | c :: d :: rest =>
    if d = '.' ∧ 'A' ≤ c ∧ c ≤ 'Z' then ⟨rest.dropWhile isPyWs⟩ else s
  | _ => s

/-- Python `parse_problem_html(soup)`. `Except.ok none` models the empty dict
returned when the `problem-statement` container is absent; `Except.error`
models the `AttributeError` raised (and caught by `fetch_problem`'s
handler) when the statement has no `header` div. -/
def parse_problem_html (doc : Html) : Except Unit (Option ProblemRecord) :=
  match findDiv "problem-statement" doc with
  | none => Except.ok none
  | some ps =>
    match findDivSib "header" ps with
    | none => Except.error ()
    | some hs =>
      let full_title := match findDiv "title" hs.1 with
        | none => ""
        | some t => bsTextStrip t
      let name := if full_title ≠ "" then stripTitlePre full_title else ""
      Except.ok (some
        { title := name
          full_title := full_title
          description := match hs.2 with
            | none => ""
            | some d => html_to_markdown d
          input_section := match findDiv "input-specification" ps with
            | none => ""
            | some d => extract_section d
          output_section := match findDiv "output-specification" ps with
            | none => ""
            | some d => extract_section d
          examples := match findDiv "sample-tests" ps with
            | none => []
            | some d => parse_examples d
          note := match findDiv "note" ps with
            | none => ""
            | some d => extract_section d })

/-! ## Metadata (`get_problem_meta` result, `tags_to_chinese`) -/

/-- The Codeforces tag → Chinese tag table. -/
def TAG_MAP : List (String × String) :=
  [("math", "数学"), ("implementation", "实现"), ("dp", "DP"), ("greedy", "贪心"),
   ("brute force", "暴力"), ("constructive algorithms", "构造"), ("sortings", "排序"),
   ("binary search", "二分"), ("graphs", "图论"), ("trees", "树"), ("strings", "字符串"),
   ("data structures", "数据结构"), ("geometry", "几何"), ("number theory", "数论"),
   ("combinatorics", "组合数学"), ("two pointers", "双指针"), ("bitmasks", "位运算"),
   ("dfs and similar", "DFS"), ("shortest paths", "最短路"), ("probabilities", "概率"),
   ("games", "博弈"), ("flows", "网络流"), ("dsu", "并查集"), ("divide and conquer", "分治"),
   ("hashing", "哈希"), ("interactive", "交互"), ("schedules", "调度"), ("matrices", "矩阵"),
   ("fft", "FFT"), ("ternary search", "三分"), ("expression parsing", "表达式解析"),
   ("meet-in-the-middle", "折半搜索"), ("2-sat", "2-SAT"),
   ("chinese remainder theorem", "中国剩余定理")]

/-- Python `str.lower()` for the ASCII tag names. -/
def pyLower (s : String) : String := s.map Char.toLower

/-- Python `TAG_MAP.get(t.lower(), t)`. -/
def lookupTag (t : String) : String :=
  match TAG_MAP.lookup (pyLower t) with
  | some z => z
  | none => t

/-- Python `tags_to_chinese(tags)`: map through the table, join with full-width
commas. -/
def tags_to_chinese (tags : List String) : String :=
  joinSep "，" (tags.map lookupTag)

/-! ## Document renderers (`build_zh_md` / `build_en_md`) -/

/-- The per-example block of the translated document: `sub = f" {i}"` only
when there is more than one example, and only the input heading carries it;
the output heading is the bare `### 输出`. -/
def zhExChunk (n i : Nat) (ex : Example) : List String :=
  let sub := if n > 1 then " " ++ toString i else ""
  ["", "### 输入" ++ sub, "", "```", pyStrip ex.input, "```", "",
   "### 输出", "", "```", pyStrip ex.output, "```", ""]

/-- The `for i, ex in enumerate(examples, 1)` loop of `build_zh_md`:
`n` is the total number of examples, `i` the running 1-based index. -/
def zhExChunks (n i : Nat) : List Example → List String
  | [] => []
  | ex :: rest => zhExChunk n i ex ++ zhExChunks n (i + 1) rest

/-- The line list assembled by `build_zh_md` before joining. -/
def build_zh_lines (translated : TranslatedRecord) (pidx author : String) :
    List String :=
  ["---", "author: " ++ author, "---", "",
   "# " ++ pidx ++ ". " ++ translated.title, "",
   "## 题目描述", "", translated.description, ""]
  ++ (if translated.input_section ≠ "" then
        ["## 输入格式", "", translated.input_section, ""] else [])
  ++ (if translated.output_section ≠ "" then
        ["## 输出格式", "", translated.output_section, ""] else [])
  ++ (if translated.examples ≠ [] then
        "## 样例" :: zhExChunks translated.examples.length 1 translated.examples
      else [])
  ++ (if translated.note ≠ "" then ["## 注意", "", translated.note, ""] else [])

/-- Python `build_zh_md`: join the lines, strip, terminate with one newline.
(`problem` and `contest_id` are parameters of the Python function but are
not used by its body.) -/
def build_zh_md (problem : ProblemRecord) (translated : TranslatedRecord)
    (cid : Nat) (pidx author : String) : String :=
  pyStrip (joinSep "\n" (build_zh_lines translated pidx author)) ++ "\n"

/-- The per-example block of the original document: the loop index `i` of
`enumerate` is never used, both headings are unnumbered. -/
def enExChunk (ex : Example) : List String :=
  ["", "### Input", "", "```", pyStrip ex.input, "```", "",
   "### Output", "", "```", pyStrip ex.output, "```", ""]

/-- The line list assembled by `build_en_md` before joining. -/
def build_en_lines (problem : ProblemRecord) (pidx : String) : List String :=
  ["# " ++ pidx ++ ". " ++ problem.title, "", problem.description, ""]
  ++ (if problem.input_section ≠ "" then
        ["## Input", "", problem.input_section, ""] else [])
  ++ (if problem.output_section ≠ "" then
        ["## Output", "", problem.output_section, ""] else [])
  ++ (if problem.examples ≠ [] then
        "## Examples" :: problem.examples.flatMap enExChunk else [])
  ++ (if problem.note ≠ "" then ["## Note", "", problem.note, ""] else [])

/-- Python `build_en_md`: join the lines, strip, terminate with one newline. -/
def build_en_md (problem : ProblemRecord) (cid : Nat) (pidx : String) : String :=
  pyStrip (joinSep "\n" (build_en_lines problem pidx)) ++ "\n"

/-! ## Index synchronizer (`update_index`)

The regex `({header}\n\n)([^\n]+\n)([^\n]+\n)([^\n]+)` is deterministic
(`[^\n]+` cannot cross a newline, so greedy matching has no choice), so
`re.search` is modelled as a leftmost scan for the pattern. -/

/-- A match of the table pattern: the content before the match, the three
line groups (without their trailing newlines) and the content after. -/
structure TableMatch where
  pre : List Char
  l1 : List Char
  l2 : List Char
  l3 : List Char
  suf : List Char
deriving DecidableEq, Repr

/-- Split off the leading line: `some (l, rest)` when the list is
`l ++ '\n' :: rest` with `l` newline-free. -/
def lineSplit : List Char → Option (List Char × List Char)
  | [] => none
  | c :: cs =>
    if c = '\n' then some ([], cs)
    else
      match lineSplit cs with
      | some lr => some (c :: lr.1, lr.2)
      | none => none

/-- A `([^\n]+\n)` group: the leading line, required non-empty. -/
def takeLineNE (cs : List Char) : Option (List Char × List Char) :=
  match lineSplit cs with
  | some lr => if lr.1 = [] then none else some lr
  | none => none

/-- A final `([^\n]+)` group: the maximal non-empty newline-free run. -/
def lastLine (cs : List Char) : Option (List Char × List Char) :=
  let l := cs.takeWhile (· != '\n')
  if l = [] then none else some (l, cs.drop l.length)

/-- Drop an exact leading pattern. -/
def dropPat : List Char → List Char → Option (List Char)
  | [], cs => some cs
  | _ :: _, [] => none
  | p :: ps, c :: cs => if p = c then dropPat ps cs else none

/-- Match `({header}\n\n)([^\n]+\n)([^\n]+\n)([^\n]+)` at the head. -/
def matchTableAt (header cs : List Char) : Option TableMatch :=
  match dropPat (header ++ ['\n', '\n']) cs with
  | none => none
  | some r0 =>
    match takeLineNE r0 with
    | none => none
    | some (l1, r1) =>
      match takeLineNE r1 with
      | none => none
      | some (l2, r2) =>
        match lastLine r2 with
        | none => none
        | some (l3, suf) => some ⟨[], l1, l2, l3, suf⟩

/-- Python `re.search` of the table pattern: the leftmost match. -/
def searchTable (header : List Char) : List Char → Option TableMatch
  | [] => matchTableAt header []
  | c :: cs =>
    match matchTableAt header (c :: cs) with
    | some m => some m
    | none =>
      match searchTable header cs with
      | some m => some { m with pre := c :: m.pre }
      | none => none

/-- Widen one table line: `line.rstrip().rstrip("|") + f"|{cell}|"`.
(The Python groups carry their trailing newline, which `rstrip()` removes
first; `searchTable` returns the lines already without it.) -/
def widenLine (cell line : List Char) : List Char :=
  rstripPipes (pyRstripL line) ++ '|' :: (cell ++ ['|'])

/-- The regex-widening branch of `update_index`: splice the widened
three-line table (each widened line regains its newline) back between the
unchanged `pre` and `suf`; the content is unchanged when the pattern does
not match (`if m:` guard). -/
def widenTable (hcell scell rcell header content : List Char) : List Char :=
  match searchTable header content with
  | none => content
  | some m =>
    m.pre ++ header ++ '\n' :: '\n' ::
      (widenLine hcell m.l1 ++ '\n' ::
        (widenLine scell m.l2 ++ '\n' ::
          (widenLine rcell m.l3 ++ '\n' :: m.suf)))

/-- String-level wrapper of `widenTable`. -/
def widenTableS (hcell scell rcell header content : String) : String :=
  ⟨widenTable hcell.data scell.data rcell.data header.data content.data⟩

/-- The link fragment `f"/problem/{contest_id}/{problem_index}"` whose
presence in the translated index makes `update_index` a no-op. -/
def zhFrag (cid : Nat) (pidx : String) : String :=
  "/problem/" ++ toString cid ++ "/" ++ pidx

/-- The link fragment checked in the original-language index. -/
def enFrag (cid : Nat) (pidx : String) : String :=
  "/en/problem/" ++ toString cid ++ "/" ++ pidx

/-- The rendered entry for the translated index. -/
def zhEntryOf (cid : Nat) (pidx en_title zh_title tags_zh : String) : String :=
  "[" ++ en_title ++ " \\| " ++ zh_title ++ "](" ++ zhFrag cid pidx ++ ")（" ++
    tags_zh ++ "）"

/-- The rendered entry for the original-language index. -/
def enEntryOf (cid : Nat) (pidx en_title : String) (tags_en : List String) : String :=
  "[" ++ en_title ++ "](" ++ enFrag cid pidx ++ ") (" ++ joinSep ", " tags_en ++ ")"

/-- The fresh one-column section appended when the contest has no header
yet: `f"\n{header}\n\n|{hcell}|\n|:-:|\n|{entry}|\n\n"`. -/
def newBlock (header hcell entry : String) : String :=
  "\n" ++ header ++ "\n\n|" ++ hcell ++ "|\n|:-:|\n|" ++ entry ++ "|\n\n"

/-- The files the pipeline touches for one (contest id, problem index)
pair: the two problem markdown files and the two index files; `none`
models an absent file. -/
structure FS where
  zhProblem : Option String
  enProblem : Option String
  zhIndex : Option String
  enIndex : Option String
deriving DecidableEq, Repr

/-- Python `update_index`: no-op when the translated index is absent or already
links this (contest id, problem index); otherwise patch the translated
index (append a fresh section, or widen the matched table), then do the
same for the original-language index when it exists and lacks the entry. -/
def update_index (cid : Nat) (pidx en_title zh_title rating : String)
    (tags_en : List String) (tags_zh : String) (fs : FS) : FS :=
  match fs.zhIndex with
  | none => fs
  | some content =>
    if containsStr content (zhFrag cid pidx) = true then fs
    else
      let header := "## " ++ toString cid
      let zhe := zhEntryOf cid pidx en_title zh_title tags_zh
      let ene := enEntryOf cid pidx en_title tags_en
      let hc := pidx ++ " [" ++ rating ++ "]"
      let zc := if containsStr content header = false
                then pyRstripS content ++ newBlock header hc zhe
                else widenTableS hc ":-:" zhe header content
      let fs1 : FS := { fs with zhIndex := some zc }
      match fs.enIndex with
      | none => fs1
      | some enContent =>
        if containsStr enContent (enFrag cid pidx) = true then fs1
        else
          let ec := if containsStr enContent header = false
                    then pyRstripS enContent ++ newBlock header hc ene
                    else widenTableS hc ":-:" ene header enContent
          { fs1 with enIndex := some ec }

/-! ## Run controller (`fetch_problem` / `run_translate`)

The HTTP responses are oracle parameters: `net` is the problem page
(`none` = request failure), `meta` the result of `get_problem_meta`
(`none` = the empty dict returned on a bad API status). -/

/-- Python `fetch_problem`: `none` when the request fails or `parse_problem_html`
raises inside the `try` block; otherwise the parse result (`some none`
models the empty dict for an unrecognized page). -/
def fetch_problem (net : Option Html) : Option (Option ProblemRecord) :=
  match net with
  | none => none
  | some doc =>
    match parse_problem_html doc with
    | Except.error _ => none
    | Except.ok r => some r

/-- Python `run_translate` for one (contest id, problem index) pair, as a pure
transform of the touched files; the returned boolean is the function's
success flag. `if not problem:` fails both when `fetch_problem` returned
`None` and when it returned the empty record. -/
def run_translate (net : Option Html) (meta : Option (String × List String))
    (lt mm : String → String) (cid : Nat) (pidx author : String)
    (force : Bool) (fs : FS) : FS × Bool :=
  let pidxU := pyUpper pidx
  if fs.zhProblem.isSome && !force then (fs, true)
  else
    match fetch_problem net with
    | some (some problem) =>
      let translated := translate_problem lt mm problem
      let rating := match meta with | none => "?" | some m => m.1
      let tags_en := match meta with | none => [] | some m => m.2
      let tags_zh := tags_to_chinese tags_en
      let zh_md := build_zh_md problem translated cid pidxU author
      let en_md := build_en_md problem cid pidxU
      let fs1 : FS := { fs with zhProblem := some zh_md, enProblem := some en_md }
      (update_index cid pidxU problem.title translated.title rating tags_en tags_zh fs1,
        true)
    | _ => (fs, false)

/-! ## Statement devices

Definitions used only to state properties: decompositions of index-table
lines into cells, canonical page fragments for the extractor claims, and
concrete records for witnesses and counterexamples. -/

/-- A table line as the synchronizer renders it: `|c1|c2|...|ck|`. -/
def rowOf (cells : List (List Char)) : List Char :=
  '|' :: cells.flatMap (fun c => c ++ ['|'])

/-- A page whose problem statement holds just a header with a title. -/
def titleDoc (h : String) : Html :=
  .tag "[document]" [] (one (.tag "div" ["problem-statement"]
    (one (.tag "div" ["header"] (one (.tag "div" ["title"] (one (.text h))))))))

/-- The header text `"<c>. <title>"`. -/
def headerOf (c : Char) (title : String) : String :=
  ⟨c :: '.' :: ' ' :: title.data⟩

/-- A sample `input` block. -/
def mkInputDiv (s : String) : Html :=
  .tag "div" ["input"] (one (.tag "pre" [] (one (.text s))))

/-- A sample `output` block. -/
def mkOutputDiv (s : String) : Html :=
  .tag "div" ["output"] (one (.tag "pre" [] (one (.text s))))

/-- One sample block: `Sum.inl` an input text, `Sum.inr` an output text. -/
def blockDiv : Sum String String → Html
  | .inl s => mkInputDiv s
  | .inr s => mkOutputDiv s

/-- The child list of a sequence of blocks. -/
def blocksOf : List (Sum String String) → HtmlList
  | [] => .nil
  | b :: bs => .cons (blockDiv b) (blocksOf bs)

/-- A `sample-tests` container holding a `sample-test` with the blocks. -/
def sampleTestsOf (bs : List (Sum String String)) : Html :=
  .tag "div" ["sample-tests"] (one (.tag "div" ["sample-test"] (blocksOf bs)))

/-- The input texts of a block sequence, in order. -/
def insOf (bs : List (Sum String String)) : List String :=
  bs.filterMap fun b => match b with | .inl s => some s | .inr _ => none

/-- The output texts of a block sequence, in order. -/
def outsOf (bs : List (Sum String String)) : List String :=
  bs.filterMap fun b => match b with | .inl _ => none | .inr s => some s

/-- A page with no `problem-statement` container at all. -/
def emptyDoc : Html := .tag "[document]" [] .nil

/-- A two-example translated record for exercising the renderers. -/
def demoT : TranslatedRecord :=
  { title := "t", description := "d", input_section := "", output_section := "",
    note := "", examples := [⟨"1", "2"⟩, ⟨"3", "4"⟩] }

/-- An original-language record with the same two examples. -/
def demoP : ProblemRecord :=
  { title := "t", full_title := "A. t", description := "d", input_section := "",
    output_section := "", examples := [⟨"1", "2"⟩, ⟨"3", "4"⟩], note := "" }

/-- A one-example translated record. -/
def demoT1 : TranslatedRecord :=
  { title := "t", description := "d", input_section := "", output_section := "",
    note := "", examples := [⟨"1", "2"⟩] }

/-- A one-example original record. -/
def demoP1 : ProblemRecord :=
  { title := "t", full_title := "A. t", description := "d", input_section := "",
    output_section := "", examples := [⟨"1", "2"⟩], note := "" }

/-! ## Helper lemmas -/

/-- When both backends come back empty, `translate` falls back to the
original text (the blank-input early return gives the same answer). -/
theorem translate_keeps_on_failure (lt mm : String → String) (t : String)
    (h1 : lt t = "") (h2 : mm t = "") : translate lt mm t = t := by
  unfold translate translateE
  by_cases hc : t = "" ∨ pyStrip t = ""
  · simp [hc]
  · simp [hc, h1, h2]

/-- Python `update_index` never touches the problem markdown files. -/
theorem update_index_keeps_problems (cid : Nat) (pidx t1 t2 r : String)
    (te : List String) (tz : String) (fs : FS) :
    (update_index cid pidx t1 t2 r te tz fs).zhProblem = fs.zhProblem ∧
      (update_index cid pidx t1 t2 r te tz fs).enProblem = fs.enProblem := by
  unfold update_index
  rcases fs with ⟨zp, ep, zi, ei⟩
  cases zi with
  | none => exact ⟨rfl, rfl⟩
  | some c =>
    simp only
    split
    · exact ⟨rfl, rfl⟩
    · cases ei with
      | none => exact ⟨rfl, rfl⟩
      | some e =>
        simp only
        split
        · exact ⟨rfl, rfl⟩
        · exact ⟨rfl, rfl⟩

/-- The skip-if-exists branch of `run_translate` without `--force`. -/
theorem run_translate_skip (net : Option Html) (meta : Option (String × List String))
    (lt mm : String → String) (cid : Nat) (pidx author : String) (fs : FS)
    (s : String) (h : fs.zhProblem = some s) :
    run_translate net meta lt mm cid pidx author false fs = (fs, true) := by
  unfold run_translate
  simp [h]

/-- The fetch-failure branches of `run_translate`. -/
theorem run_translate_fails (net : Option Html) (meta : Option (String × List String))
    (lt mm : String → String) (cid : Nat) (pidx author : String) (fs : FS)
    (hz : fs.zhProblem = none)
    (hf : fetch_problem net = none ∨ fetch_problem net = some none) :
    run_translate net meta lt mm cid pidx author false fs = (fs, false) := by
  unfold run_translate
  rcases hf with hf | hf <;> simp [hz, hf]

/-- A successful `run_translate` writes the translated problem file and
reports success. -/
theorem run_translate_success (net : Option Html) (meta : Option (String × List String))
    (lt mm : String → String) (cid : Nat) (pidx author : String) (fs : FS)
    (p : ProblemRecord) (hz : fs.zhProblem = none)
    (hf : fetch_problem net = some (some p)) :
    (run_translate net meta lt mm cid pidx author false fs).1.zhProblem =
        some (build_zh_md p (translate_problem lt mm p) cid (pyUpper pidx) author) ∧
      (run_translate net meta lt mm cid pidx author false fs).2 = true := by
  unfold run_translate
  simp only [hz, hf, Option.isSome_none, Bool.false_and, Bool.not_false,
    Bool.and_true, Bool.false_eq_true, if_neg, ite_false]
  constructor
  · rw [(update_index_keeps_problems _ _ _ _ _ _ _ _).1]
  · trivial

/-! ## Claims -/

/-- Claim C2: the `examples` field of the `TranslatedRecord` produced by
`translate_problem` is identical element-for-element to the `examples`
field of the source `ProblemRecord`; translation never modifies sample
I/O text. -/
theorem C2_examples_verbatim (lt mm : String → String) (p : ProblemRecord) :
    (translate_problem lt mm p).examples = p.examples := rfl

/-- Claim C9: on input that is empty or all-whitespace, `translate`
returns the text unchanged, contacts neither backend, and skips the
post-call pause (the event trace is empty). -/
theorem C9_blank_short_circuit (lt mm : String → String) (t : String)
    (h : t = "" ∨ pyStrip t = "") :
    translateE lt mm t = (t, []) := by
  unfold translateE
  rw [if_pos h]

/-- Witness for C9 at the two-space input. -/
theorem C9_blank_short_circuit_witness :
    ("  " = "" ∨ pyStrip "  " = "") ∧
      translateE (fun _ => "x") (fun _ => "y") "  " = ("  ", []) :=
  ⟨Or.inr (by decide),
    C9_blank_short_circuit (fun _ => "x") (fun _ => "y") "  " (Or.inr (by decide))⟩

/-- Claim C5: on non-blank text for which both backends fail (return
`""`), `translate` returns the original text, and such a failure on one
field of `translate_problem` leaves that field equal to the source while
every other field is still processed as usual. -/
theorem C5_double_failure_fail_soft (lt mm : String → String) (t : String)
    (p : ProblemRecord)
    (hblank : pyStrip t ≠ "") (h1 : lt t = "") (h2 : mm t = "")
    (hd1 : lt p.description = "") (hd2 : mm p.description = "") :
    translate lt mm t = t ∧
      (translate_problem lt mm p).description = p.description ∧
      (translate_problem lt mm p).title = translate lt mm p.title ∧
      (translate_problem lt mm p).input_section = translate lt mm p.input_section ∧
      (translate_problem lt mm p).output_section = translate lt mm p.output_section ∧
      (translate_problem lt mm p).note =
        (if p.note ≠ "" then translate lt mm p.note else "") ∧
      (translate_problem lt mm p).examples = p.examples :=
  ⟨translate_keeps_on_failure lt mm t h1 h2,
    translate_keeps_on_failure lt mm p.description hd1 hd2,
    rfl, rfl, rfl, rfl, rfl⟩

/-- Witness for C5 at a concrete text and record with failing backends. -/
theorem C5_double_failure_fail_soft_witness :
    translate (fun _ => "") (fun _ => "") "hello" = "hello" ∧
      (translate_problem (fun _ => "") (fun _ => "") demoP).description =
        demoP.description :=
  ⟨(C5_double_failure_fail_soft (fun _ => "") (fun _ => "") "hello" demoP
      (by decide) rfl rfl rfl rfl).1,
    (C5_double_failure_fail_soft (fun _ => "") (fun _ => "") "hello" demoP
      (by decide) rfl rfl rfl rfl).2.1⟩

/-- Claim C1: when the translated index already contains the link
fragment for the (contest id, problem index) pair, `update_index` leaves
the state unchanged; and re-running `run_translate` for the same pair
without force-overwrite returns exactly the result of the first run, so
no file changes after the first run. -/
theorem C1_idempotent (cid : Nat) (pidx t1 t2 r : String) (te : List String)
    (tz : String) (zp ep : Option String) (c : String) (ei : Option String)
    (net : Option Html) (meta : Option (String × List String))
    (lt mm : String → String) (author : String) (fs : FS)
    (hfrag : containsStr c (zhFrag cid pidx) = true) :
    update_index cid pidx t1 t2 r te tz ⟨zp, ep, some c, ei⟩ = ⟨zp, ep, some c, ei⟩ ∧
      run_translate net meta lt mm cid pidx author false
          (run_translate net meta lt mm cid pidx author false fs).1 =
        run_translate net meta lt mm cid pidx author false fs := by
  constructor
  · unfold update_index
    simp [hfrag]
  · cases hz : fs.zhProblem with
    | some s =>
      have h1 := run_translate_skip net meta lt mm cid pidx author fs s hz
      rw [h1]
      exact h1
    | none =>
      cases hf : fetch_problem net with
      | none =>
        have h1 := run_translate_fails net meta lt mm cid pidx author fs hz
          (Or.inl hf)
        rw [h1]
        exact h1
      | some ro =>
        cases ro with
        | none =>
          have h1 := run_translate_fails net meta lt mm cid pidx author fs hz
            (Or.inr hf)
          rw [h1]
          exact h1
        | some p =>
          have hs := run_translate_success net meta lt mm cid pidx author fs p hz hf
          have h2 := run_translate_skip net meta lt mm cid pidx author
            (run_translate net meta lt mm cid pidx author false fs).1 _ hs.1
          rw [h2]
          exact Prod.ext rfl hs.2.symm

/-- Witness for C1 at a concrete pre-populated index and empty state. -/
theorem C1_idempotent_witness :
    update_index 1 "A" "t" "译" "800" [] "数学"
        ⟨none, none, some "x [/problem/1/A] y", none⟩ =
      ⟨none, none, some "x [/problem/1/A] y", none⟩ ∧
      run_translate none none (fun _ => "") (fun _ => "") 1 "A" "au" false
          (run_translate none none (fun _ => "") (fun _ => "") 1 "A" "au" false
            ⟨none, none, none, none⟩).1 =
        run_translate none none (fun _ => "") (fun _ => "") 1 "A" "au" false
          ⟨none, none, none, none⟩ :=
  C1_idempotent 1 "A" "t" "译" "800" [] "数学" none none "x [/problem/1/A] y" none
    none none (fun _ => "") (fun _ => "") "au" ⟨none, none, none, none⟩ (by decide)

/-- Claim C10: when the translated index file is absent, or already
contains the link fragment, `update_index` returns without modifying the
original-language index (whatever its state), indeed without modifying
anything. -/
theorem C10_en_untouched (cid : Nat) (pidx t1 t2 r : String) (te : List String)
    (tz : String) (fs : FS)
    (h : fs.zhIndex = none ∨
      ∃ c, fs.zhIndex = some c ∧ containsStr c (zhFrag cid pidx) = true) :
    (update_index cid pidx t1 t2 r te tz fs).enIndex = fs.enIndex ∧
      update_index cid pidx t1 t2 r te tz fs = fs := by
  have hfix : update_index cid pidx t1 t2 r te tz fs = fs := by
    unfold update_index
    rcases h with h | ⟨c, hc, hfrag⟩
    · rw [h]
    · rw [hc]
      simp [hfrag]
  exact ⟨by rw [hfix], hfix⟩

/-- Witness for C10: the original-language index exists and lacks the
entry, the translated one is absent; nothing changes. -/
theorem C10_en_untouched_witness :
    (update_index 7 "B" "t" "译" "900" [] ""
        ⟨none, none, none, some "# 索引"⟩).enIndex = some "# 索引" ∧
      update_index 7 "B" "t" "译" "900" [] "" ⟨none, none, none, some "# 索引"⟩ =
        ⟨none, none, none, some "# 索引"⟩ :=
  C10_en_untouched 7 "B" "t" "译" "900" [] "" ⟨none, none, none, some "# 索引"⟩
    (Or.inl rfl)

/-- The numbered input heading of the `k`-th example sits in the chunk
list whenever there is more than one example. -/
theorem zh_numbered_heading_mem (n : Nat) : ∀ (exs : List Example) (i k : Nat),
    k < exs.length →
    ("### 输入" ++ (if n > 1 then " " ++ toString (i + k) else "")) ∈
      zhExChunks n i exs := by
  intro exs
  induction exs with
  | nil => intro i k h; simp at h
  | cons ex rest ih =>
    intro i k h
    cases k with
    | zero =>
      simp only [Nat.add_zero, zhExChunks, zhExChunk]
      simp [List.mem_append]
    | succ k2 =>
      have h2 := ih (i + 1) k2 (by simpa using h)
      rw [show i + (k2 + 1) = (i + 1) + k2 by omega]
      exact List.mem_append_right _ h2

/-- Counterexample for claim C3: with two examples the original-language
renderer emits the unnumbered "### Input" heading twice and no
"### Input 1" line, and the translated renderer emits "### 输出" twice and
no "### 输出 1" line, refuting the claim that both documents number both
headings from 1 when there are two or more examples. -/
theorem C3_counterexample :
    demoT.examples.length = 2 ∧ demoP.examples.length = 2 ∧
      ¬ "### Input 1" ∈ build_en_lines demoP "A" ∧
      (build_en_lines demoP "A").count "### Input" = 2 ∧
      ¬ "### 输出 1" ∈ build_zh_lines demoT "A" "au" ∧
      (build_zh_lines demoT "A" "au").count "### 输出" = 2 := by
  refine ⟨rfl, rfl, ?_, ?_, ?_, ?_⟩ <;> decide

/-- Claim C3 (amended): with exactly one example the headings carry no
numeric suffix; with two or more examples only the input headings of the
translated document are numbered from 1, while its output headings are
always the bare "### 输出" and the original-language document's headings
are always the bare "### Input"/"### Output" (the loop index is unused
there). -/
theorem C3_heading_numbering (tr : TranslatedRecord) (pidx author : String)
    (pr : ProblemRecord) (n i : Nat) (ex : Example) (exs : List Example)
    (k : Nat) :
    (tr.examples.length = 1 → "### 输入" ∈ build_zh_lines tr pidx author) ∧
      (pr.examples.length = 1 → "### Input" ∈ build_en_lines pr pidx) ∧
      (2 ≤ tr.examples.length → k < tr.examples.length →
        ("### 输入 " ++ toString (k + 1)) ∈ build_zh_lines tr pidx author) ∧
      (zhExChunks n i (ex :: exs))[1]? =
        some ("### 输入" ++ (if n > 1 then " " ++ toString i else "")) ∧
      (zhExChunks n i (ex :: exs))[7]? = some "### 输出" ∧
      (enExChunk ex)[1]? = some "### Input" ∧
      (enExChunk ex)[7]? = some "### Output" := by
  refine ⟨?_, ?_, ?_, rfl, rfl, rfl, rfl⟩
  · intro hlen
    obtain ⟨e, he⟩ := List.length_eq_one.mp hlen
    have hne : tr.examples ≠ [] := by rw [he]; simp
    unfold build_zh_lines
    rw [if_pos hne, he]
    simp [zhExChunks, zhExChunk, List.mem_append]
  · intro hlen
    obtain ⟨e, he⟩ := List.length_eq_one.mp hlen
    have hne : pr.examples ≠ [] := by rw [he]; simp
    unfold build_en_lines
    rw [if_pos hne, he]
    simp [enExChunk, List.mem_append]
  · intro h2 hk
    have hne : tr.examples ≠ [] := by
      intro hh; rw [hh] at h2; simp at h2
    have hn1 : tr.examples.length > 1 := h2
    have hmem := zh_numbered_heading_mem tr.examples.length tr.examples 1 k hk
    rw [if_pos hn1] at hmem
    have hlit : "### 输入 " = "### 输入" ++ " " := by decide
    have heq : "### 输入 " ++ toString (k + 1) =
        "### 输入" ++ (" " ++ toString (1 + k)) := by
      rw [Nat.add_comm k 1, hlit, String.append_assoc]
    rw [heq]
    unfold build_zh_lines
    rw [if_pos hne]
    exact List.mem_append_left _ (List.mem_append_right _
      (List.mem_cons_of_mem _ hmem))

/-- Witness for C3 (amended) at one- and two-example records. -/
theorem C3_heading_numbering_witness :
    "### 输入" ∈ build_zh_lines demoT1 "A" "au" ∧
      "### Input" ∈ build_en_lines demoP1 "A" ∧
      ("### 输入 " ++ toString (0 + 1)) ∈ build_zh_lines demoT "A" "au" :=
  ⟨(C3_heading_numbering demoT1 "A" "au" demoP1 0 0 ⟨"", ""⟩ [] 0).1 rfl,
    (C3_heading_numbering demoT1 "A" "au" demoP1 0 0 ⟨"", ""⟩ [] 0).2.1 rfl,
    (C3_heading_numbering demoT "A" "au" demoP 0 0 ⟨"", ""⟩ [] 0).2.2.1
      (by decide) (by decide)⟩

/-- The `input` divs found inside a block sequence are exactly its input
blocks, in order. -/
theorem findAll_input_blocks : ∀ bs : List (Sum String String),
    findAllDivL "input" (blocksOf bs) = (insOf bs).map mkInputDiv := by
  intro bs
  induction bs with
  | nil => rfl
  | cons b rest ih =>
    cases b with
    | inl s =>
      have h1 : isDivCl "input" (mkInputDiv s) = true := rfl
      have h2 : findAllDiv "input" (mkInputDiv s) = [] := rfl
      simp only [blocksOf, blockDiv, findAllDivL, h1, h2, if_true, insOf,
        List.filterMap_cons, ih]
      simp [insOf]
    | inr s =>
      have h1 : isDivCl "input" (mkOutputDiv s) = false := rfl
      have h2 : findAllDiv "input" (mkOutputDiv s) = [] := rfl
      simp only [blocksOf, blockDiv, findAllDivL, h1, h2, if_false, insOf,
        List.filterMap_cons, ih]
      simp [insOf]

/-- The `output` divs found inside a block sequence are exactly its output
blocks, in order. -/
theorem findAll_output_blocks : ∀ bs : List (Sum String String),
    findAllDivL "output" (blocksOf bs) = (outsOf bs).map mkOutputDiv := by
  intro bs
  induction bs with
  | nil => rfl
  | cons b rest ih =>
    cases b with
    | inl s =>
      have h1 : isDivCl "output" (mkInputDiv s) = false := rfl
      have h2 : findAllDiv "output" (mkInputDiv s) = [] := rfl
      simp only [blocksOf, blockDiv, findAllDivL, h1, h2, if_false, outsOf,
        List.filterMap_cons, ih]
      simp [outsOf]
    | inr s =>
      have h1 : isDivCl "output" (mkOutputDiv s) = true := rfl
      have h2 : findAllDiv "output" (mkOutputDiv s) = [] := rfl
      simp only [blocksOf, blockDiv, findAllDivL, h1, h2, if_true, outsOf,
        List.filterMap_cons, ih]
      simp [outsOf]

/-- Claim C8: for any sequence of sample blocks with `n` input blocks and
`m` output blocks, `parse_examples` yields exactly `min n m` pairs, the
i-th pair combining the i-th input text with the i-th output text; it is
total, so unequal or missing blocks never make it fail. -/
theorem C8_positional_zip (bs : List (Sum String String)) :
    parse_examples (sampleTestsOf bs) =
      ((insOf bs).zip (outsOf bs)).map (fun p => (⟨p.1, p.2⟩ : Example)) ∧
      (parse_examples (sampleTestsOf bs)).length =
        min (insOf bs).length (outsOf bs).length := by
  have hfind : findDiv "sample-test" (sampleTestsOf bs) =
      some (.tag "div" ["sample-test"] (blocksOf bs)) := rfl
  have hmain : parse_examples (sampleTestsOf bs) =
      ((insOf bs).zip (outsOf bs)).map (fun p => (⟨p.1, p.2⟩ : Example)) := by
    unfold parse_examples
    rw [hfind]
    show ((findAllDivL "input" (blocksOf bs)).zip
        (findAllDivL "output" (blocksOf bs))).map exOf = _
    rw [findAll_input_blocks, findAll_output_blocks, List.zip_map, List.map_map]
    refine List.map_congr_left ?_
    intro p _
    show exOf (mkInputDiv p.1, mkOutputDiv p.2) = ⟨p.1, p.2⟩
    show (⟨p.1 ++ "", p.2 ++ ""⟩ : Example) = ⟨p.1, p.2⟩
    simp [String.append_empty]
  refine ⟨hmain, ?_⟩
  rw [hmain, List.length_map, List.length_zip]

/-- Claim C6: a page with no `problem-statement` container parses to the
empty record, and `run_translate` treats that outcome exactly like a
fetch failure: it reports failure and writes no files. -/
theorem C6_empty_record_is_failure (doc : Html)
    (h : findDiv "problem-statement" doc = none)
    (meta : Option (String × List String)) (lt mm : String → String)
    (cid : Nat) (pidx author : String) (fs : FS)
    (hz : fs.zhProblem = none) :
    parse_problem_html doc = Except.ok none ∧
      run_translate (some doc) meta lt mm cid pidx author false fs = (fs, false) ∧
      run_translate (some doc) meta lt mm cid pidx author false fs =
        run_translate none meta lt mm cid pidx author false fs := by
  have hp : parse_problem_html doc = Except.ok none := by
    unfold parse_problem_html
    rw [h]
  have hfetch : fetch_problem (some doc) = some none := by
    unfold fetch_problem
    simp only [hp]
  refine ⟨hp, ?_, ?_⟩
  · exact run_translate_fails (some doc) meta lt mm cid pidx author fs hz
      (Or.inr hfetch)
  · rw [run_translate_fails (some doc) meta lt mm cid pidx author fs hz
      (Or.inr hfetch),
      run_translate_fails none meta lt mm cid pidx author fs hz (Or.inl rfl)]

/-- Witness for C6 at a concrete container-free page and empty state. -/
theorem C6_empty_record_is_failure_witness :
    parse_problem_html emptyDoc = Except.ok none ∧
      run_translate (some emptyDoc) none (fun _ => "") (fun _ => "") 1 "A" "au"
          false ⟨none, none, none, none⟩ = (⟨none, none, none, none⟩, false) ∧
      run_translate (some emptyDoc) none (fun _ => "") (fun _ => "") 1 "A" "au"
          false ⟨none, none, none, none⟩ =
        run_translate none none (fun _ => "") (fun _ => "") 1 "A" "au"
          false ⟨none, none, none, none⟩ :=
  C6_empty_record_is_failure emptyDoc rfl none (fun _ => "") (fun _ => "") 1 "A"
    "au" ⟨none, none, none, none⟩ rfl

/-- Uppercase letters are not Python whitespace. -/
theorem upper_not_ws (c : Char) (h1 : 'A' ≤ c) (h2 : c ≤ 'Z') :
    isPyWs c = false := by
  by_contra hc
  have htrue : isPyWs c = true := by simpa using hc
  have hmem : ((((c = ' ' ∨ c = '\t') ∨ c = '\n') ∨ c = '\r') ∨ c = '\x0b') ∨
      c = '\x0c' := by
    simpa [isPyWs] using htrue
  rcases hmem with ((((rfl | rfl) | rfl) | rfl) | rfl) | rfl <;>
    exact absurd h1 (by decide)

/-- If `dropWhile` keeps a cons intact, the predicate fails at its head. -/
theorem head_false_of_dropWhile_eq {p : Char → Bool} {b : Char} {rest : List Char}
    (h : (b :: rest).dropWhile p = b :: rest) : p b = false := by
  by_contra hcon
  have hb : p b = true := by simpa using hcon
  rw [List.dropWhile_cons, if_pos hb] at h
  have hlen := congrArg List.length h
  have hle : (rest.dropWhile p).length ≤ rest.length :=
    (List.dropWhile_sublist _).length_le
  simp at hlen
  omega

/-- Right-stripping is unaffected by text prepended before an already
right-stripped, nonempty tail. -/
theorem pyRstripL_append (p t : List Char) (hne : t ≠ [])
    (ht : pyRstripL t = t) : pyRstripL (p ++ t) = p ++ t := by
  unfold pyRstripL at ht ⊢
  have h1 : t.reverse.dropWhile isPyWs = t.reverse := by
    have h2 := congrArg List.reverse ht
    simpa using h2
  rw [List.reverse_append]
  cases htr : t.reverse with
  | nil => exact absurd (by simpa using congrArg List.reverse htr) hne
  | cons b rest =>
    rw [htr] at h1
    have hb : isPyWs b = false := head_false_of_dropWhile_eq h1
    have ht2 : t = rest.reverse ++ [b] := by
      have h3 := congrArg List.reverse htr
      simpa using h3
    rw [List.cons_append, List.dropWhile_cons, if_neg (by simp [hb])]
    simp [ht2]

/-- A nonempty string has a nonempty character list. -/
theorem data_ne_nil {s : String} (h : s ≠ "") : s.data ≠ [] := by
  intro hd
  apply h
  cases s with
  | mk d =>
    cases hd
    rfl

/-- Python `str.strip` keeps a string with no leading and no trailing whitespace. -/
theorem pyStrip_keep (s : String) (hhead : s.data.dropWhile isPyWs = s.data)
    (hlast : pyRstripL s.data = s.data) : pyStrip s = s := by
  unfold pyStrip pyStripL
  rw [hhead, hlast]

/-- Python `parse_problem_html` on a page holding only a header/title: the title
text comes back stripped of the letter prefix, `full_title` unstripped. -/
theorem parse_titleDoc (hd : String) (hne : hd ≠ "") (hstrip : pyStrip hd = hd) :
    parse_problem_html (titleDoc hd) =
      Except.ok (some ⟨stripTitlePre hd, hd, "", "", "", [], ""⟩) := by
  have hbs : bsTextStrip (Html.tag "div" ["title"] (one (.text hd))) = hd := by
    have ht : texts (Html.tag "div" ["title"] (one (.text hd))) = [hd] := rfl
    unfold bsTextStrip
    rw [ht]
    unfold stripTexts
    rw [hstrip]
    simp [hne, joinSep]
  have hred : parse_problem_html (titleDoc hd) = Except.ok (some
      { title := if bsTextStrip (Html.tag "div" ["title"] (one (.text hd))) ≠ ""
          then stripTitlePre (bsTextStrip (Html.tag "div" ["title"] (one (.text hd))))
          else ""
        full_title := bsTextStrip (Html.tag "div" ["title"] (one (.text hd)))
        description := ""
        input_section := ""
        output_section := ""
        examples := []
        note := "" }) := rfl
  rw [hred, hbs, if_pos hne]

/-- The regex strips `<upper>.<ws*>` from the head of the header. -/
theorem stripTitlePre_strips (c : Char) (title : String) (hc1 : 'A' ≤ c)
    (hc2 : c ≤ 'Z') (hhead : title.data.dropWhile isPyWs = title.data) :
    stripTitlePre (headerOf c title) = title := by
  unfold stripTitlePre headerOf
  show (if '.' = '.' ∧ 'A' ≤ c ∧ c ≤ 'Z'
    then (⟨(' ' :: title.data).dropWhile isPyWs⟩ : String)
    else ⟨c :: '.' :: ' ' :: title.data⟩) = title
  rw [if_pos ⟨rfl, hc1, hc2⟩]
  have hsp : isPyWs ' ' = true := rfl
  rw [List.dropWhile_cons, if_pos hsp, hhead]

/-- The regex leaves a header not starting with an uppercase letter and a
period unchanged. -/
theorem stripTitlePre_nomatch (s : String)
    (hno : ∀ c d rest, s.data = c :: d :: rest → ¬(d = '.' ∧ 'A' ≤ c ∧ c ≤ 'Z')) :
    stripTitlePre s = s := by
  unfold stripTitlePre
  split
  · next c d rest heq => rw [if_neg (hno c d rest heq)]
  · rfl

/-- Counterexample for claim C7: the header `"A.Title"` contains no
"letter period space" prefix (no `". "` occurs in it at all), yet
extraction strips the `"A."` and yields the bare title `"Title"` instead
of the header text itself, because the regex makes the whitespace
optional. -/
theorem C7_counterexample :
    parse_problem_html (titleDoc "A.Title") =
      Except.ok (some ⟨"Title", "A.Title", "", "", "", [], ""⟩) ∧
      containsStr "A.Title" ". " = false ∧
      "Title" ≠ "A.Title" := by
  refine ⟨rfl, by decide, by decide⟩

/-- Claim C7 (amended): a header of the form `<upper-letter>. <title>`
(title nonempty and whitespace-trimmed) extracts to the bare title with
the prefix stripped while `full_title` keeps the whole header text; a
header that does not begin with an uppercase letter immediately followed
by a period extracts to the header text itself. (The regex `^[A-Z]\.\s*`
also strips a letter-period prefix that lacks the following space.) -/
theorem C7_title_extraction (c : Char) (title : String) (hT : String)
    (hc1 : 'A' ≤ c) (hc2 : c ≤ 'Z') (htne : title ≠ "")
    (hhead : title.data.dropWhile isPyWs = title.data)
    (hlast : pyRstripL title.data = title.data)
    (hne2 : hT ≠ "") (hstrip2 : pyStrip hT = hT)
    (hno : ∀ c2 d rest, hT.data = c2 :: d :: rest →
      ¬(d = '.' ∧ 'A' ≤ c2 ∧ c2 ≤ 'Z')) :
    parse_problem_html (titleDoc (headerOf c title)) =
      Except.ok (some ⟨title, headerOf c title, "", "", "", [], ""⟩) ∧
      parse_problem_html (titleDoc hT) =
        Except.ok (some ⟨hT, hT, "", "", "", [], ""⟩) := by
  constructor
  · have hne : headerOf c title ≠ "" := by
      intro hh
      have hdat := congrArg String.data hh
      simp [headerOf] at hdat
    have hstrip : pyStrip (headerOf c title) = headerOf c title := by
      apply pyStrip_keep
      · show (c :: '.' :: ' ' :: title.data).dropWhile isPyWs = _
        rw [List.dropWhile_cons, if_neg (by simp [upper_not_ws c hc1 hc2])]
        rfl
      · show pyRstripL ([c, '.', ' '] ++ title.data) = [c, '.', ' '] ++ title.data
        exact pyRstripL_append [c, '.', ' '] title.data (data_ne_nil htne) hlast
    rw [parse_titleDoc (headerOf c title) hne hstrip,
      stripTitlePre_strips c title hc1 hc2 hhead]
  · rw [parse_titleDoc hT hne2 hstrip2, stripTitlePre_nomatch hT hno]

/-- Witness for C7 (amended) at `"A. Example Title"` and a prefix-free
header `"Theatre Square"`. -/
theorem C7_title_extraction_witness :
    parse_problem_html (titleDoc (headerOf 'A' "Example Title")) =
      Except.ok (some
        ⟨"Example Title", headerOf 'A' "Example Title", "", "", "", [], ""⟩) ∧
      parse_problem_html (titleDoc "Theatre Square") =
        Except.ok (some ⟨"Theatre Square", "Theatre Square", "", "", "", [], ""⟩) :=
  C7_title_extraction 'A' "Example Title" "Theatre Square" (by decide) (by decide)
    (by decide) (by decide) (by decide) (by decide) (by decide)
    (by
      intro c2 d rest heq
      have heq2 : 'T' :: 'h' :: "eatre Square".data = c2 :: d :: rest := heq
      injection heq2 with h1 h23
      injection h23 with h2 h3
      subst h1
      subst h2
      decide)

/-- Right-stripping with any predicate keeps a list whose last element
fails the predicate. -/
theorem rstrip_gen (p : Char → Bool) (Y : List Char) (a : Char)
    (h : p a = false) :
    ((Y ++ [a]).reverse.dropWhile p).reverse = Y ++ [a] := by
  rw [List.reverse_append]
  simp only [List.reverse_cons, List.reverse_nil, List.nil_append,
    List.singleton_append]
  rw [List.dropWhile_cons, if_neg (by simp [h])]
  simp

/-- Python `rstrip()` keeps a line ending in a non-whitespace character. -/
theorem pyRstripL_snoc (Y : List Char) (a : Char) (h : isPyWs a = false) :
    pyRstripL (Y ++ [a]) = Y ++ [a] :=
  rstrip_gen isPyWs Y a h

/-- Python `rstrip("|")` keeps a list ending in a non-pipe character. -/
theorem rstripPipes_snoc (Y : List Char) (a : Char) (h : a ≠ '|') :
    rstripPipes (Y ++ [a]) = Y ++ [a] :=
  rstrip_gen (· == '|') Y a (by simp [h])

/-- Python `rstrip("|")` drops a trailing pipe. -/
theorem rstripPipes_pipe (Y : List Char) :
    rstripPipes (Y ++ ['|']) = rstripPipes Y := by
  unfold rstripPipes
  rw [List.reverse_append]
  simp only [List.reverse_cons, List.reverse_nil, List.nil_append,
    List.singleton_append]
  rw [List.dropWhile_cons, if_pos (by simp)]

/-- Widening a rendered table row appends exactly one cell: the previous
cells survive verbatim (the final cell must be nonempty and not end in a
pipe, which the synchronizer's own rendering guarantees). -/
theorem widenLine_rowOf (cells0 : List (List Char)) (cinit : List Char)
    (ca : Char) (hca : ca ≠ '|') (cell : List Char) :
    widenLine cell (rowOf (cells0 ++ [cinit ++ [ca]])) =
      rowOf (cells0 ++ [cinit ++ [ca]] ++ [cell]) := by
  have hY : rowOf (cells0 ++ [cinit ++ [ca]]) =
      (('|' :: (cells0.flatMap (fun x => x ++ ['|']) ++ cinit)) ++ [ca]) ++ ['|'] := by
    simp [rowOf, List.flatMap_append]
  unfold widenLine
  rw [hY, pyRstripL_snoc _ '|' rfl, rstripPipes_pipe, rstripPipes_snoc _ ca hca]
  simp [rowOf, List.flatMap_append]

/-- Claim C4: on a content whose matched contest table has the three-line
shape the synchronizer itself produces (each line a `|`-delimited row of
cells, the last cell not ending in a pipe), the widening appends exactly
one header cell, one separator cell and one data cell, keeps every
existing cell verbatim, and leaves the text before and after the matched
table unchanged; under the `update_index` gates this is exactly the new
translated-index content. -/
theorem C4_widens_one_column (hcell scell rcell : List Char)
    (header content : String) (pre suf : List Char)
    (h0 s0 r0 : List (List Char)) (hi si ri : List Char) (ha sa ra : Char)
    (hha : ha ≠ '|') (hsa : sa ≠ '|') (hra : ra ≠ '|')
    (hsearch : searchTable header.data content.data = some
      ⟨pre, rowOf (h0 ++ [hi ++ [ha]]), rowOf (s0 ++ [si ++ [sa]]),
        rowOf (r0 ++ [ri ++ [ra]]), suf⟩) :
    widenTable hcell scell rcell header.data content.data =
      pre ++ header.data ++ '\n' :: '\n' ::
        (rowOf (h0 ++ [hi ++ [ha]] ++ [hcell]) ++ '\n' ::
          (rowOf (s0 ++ [si ++ [sa]] ++ [scell]) ++ '\n' ::
            (rowOf (r0 ++ [ri ++ [ra]] ++ [rcell]) ++ '\n' :: suf))) ∧
      (∀ (cid : Nat) (pidx t1 t2 r : String) (te : List String) (tz : String)
          (zp ep : Option String),
        containsStr content (zhFrag cid pidx) = false →
        containsStr content ("## " ++ toString cid) = true →
        header = "## " ++ toString cid →
        hcell = (pidx ++ " [" ++ r ++ "]").data →
        scell = (":-:" : String).data →
        rcell = (zhEntryOf cid pidx t1 t2 tz).data →
        update_index cid pidx t1 t2 r te tz ⟨zp, ep, some content, none⟩ =
          ⟨zp, ep,
            some ⟨widenTable hcell scell rcell header.data content.data⟩,
            none⟩) := by
  constructor
  · unfold widenTable
    rw [hsearch]
    dsimp only
    rw [widenLine_rowOf h0 hi ha hha hcell, widenLine_rowOf s0 si sa hsa scell,
      widenLine_rowOf r0 ri ra hra rcell]
  · intro cid pidx t1 t2 r te tz zp ep hfrag hhdr hh hhc hsc hrc
    subst hh hhc hsc hrc
    unfold update_index
    simp [hfrag, hhdr, widenTableS]

/-- Witness for C4 at a one-column table for contest 1 gaining problem B. -/
theorem C4_widens_one_column_witness :
    widenTable ("B [9]").data (":-:").data
        (zhEntryOf 1 "B" "t1" "t2" "数学").data ("## 1").data
        ("# t\n\n## 1\n\n|A [8]|\n|:-:|\n|x|\n\n").data =
      ("# t\n\n").data ++ ("## 1").data ++ '\n' :: '\n' ::
        (rowOf ([] ++ [("A [8").data ++ [']']] ++ [("B [9]").data]) ++ '\n' ::
          (rowOf ([] ++ [(":-").data ++ [':']] ++ [(":-:").data]) ++ '\n' ::
            (rowOf ([] ++ [([] : List Char) ++ ['x']] ++
                [(zhEntryOf 1 "B" "t1" "t2" "数学").data]) ++ '\n' ::
              ("\n\n").data))) ∧
      update_index 1 "B" "t1" "t2" "9" [] "数学"
          ⟨none, none, some "# t\n\n## 1\n\n|A [8]|\n|:-:|\n|x|\n\n", none⟩ =
        ⟨none, none,
          some ⟨widenTable ("B [9]").data (":-:").data
            (zhEntryOf 1 "B" "t1" "t2" "数学").data ("## 1").data
            ("# t\n\n## 1\n\n|A [8]|\n|:-:|\n|x|\n\n").data⟩,
          none⟩ := by
  have h := C4_widens_one_column ("B [9]").data (":-:").data
    (zhEntryOf 1 "B" "t1" "t2" "数学").data "## 1"
    "# t\n\n## 1\n\n|A [8]|\n|:-:|\n|x|\n\n"
    ("# t\n\n").data ("\n\n").data [] [] [] ("A [8").data (":-").data []
    ']' ':' 'x' (by decide) (by decide) (by decide) (by decide)
  exact ⟨h.1, h.2 1 "B" "t1" "t2" "9" [] "数学" none none (by decide) (by decide)
    rfl rfl rfl rfl⟩

end CFTrans
